import Mathlib

/-! Shallow embedding of the error-stack and random-byte modules of a Rust
binding to a native cryptography library (source files error.rs and rand.rs),
together with a model of the backend primitives those modules call.  The
modelled build configuration is the legacy one, cfg(not boringssl) and
cfg(not ossl300): in that configuration the combined pop accessor
ERR_get_error_all is synthesized in error.rs itself from the legacy pop
primitive and the function-name lookup.  C strings are modelled as their
byte contents (without the terminating NUL); the thread-local backend error
queue is a list of raw records, oldest first.  Hard failures (assertion
failures and the UTF-8 validation in Error::get) are modelled as the error
side of an Except with a PanicKind tag. -/

namespace Ossl

/-- Byte strings: the contents of C strings, without the terminating NUL. -/
abbrev Bytes := List Nat

/-- UTF-8 encoding of a single Unicode scalar value. -/
def utf8EncodeChar (c : Nat) : Bytes :=
  if c < 0x80 then [c]
  else if c < 0x800 then [0xC0 + c / 64, 0x80 + c % 64]
  else if c < 0x10000 then [0xE0 + c / 4096, 0x80 + c / 64 % 64, 0x80 + c % 64]
  else [0xF0 + c / 262144, 0x80 + c / 4096 % 64, 0x80 + c / 64 % 64, 0x80 + c % 64]

/-- UTF-8 encoding of a sequence of Unicode scalar values. -/
def utf8Encode (cs : List Nat) : Bytes := (cs.map utf8EncodeChar).flatten

/-- A Unicode scalar value: below 0x110000 and not a surrogate. -/
def validScalar (c : Nat) : Prop := c < 0x110000 ∧ ¬ (0xD800 ≤ c ∧ c < 0xE000)

instance (c : Nat) : Decidable (validScalar c) := by
  unfold validScalar; infer_instance

/-- The strict UTF-8 validating decoder, byte at a time, performing the exact
shortest-form validation that Rust's str::from_utf8 performs: overlong
encodings, surrogate code points, values above 0x10FFFF, stray continuation
bytes and truncated sequences are all rejected.  pending counts the
continuation bytes still expected, acc holds the partial scalar, and lo and
hi bound the admissible range of the next continuation byte (the first
continuation byte of a 3- or 4-byte sequence has a restricted range fixed by
the lead byte). -/
def utf8Run : Nat → Nat → Nat → Nat → List Nat → Option (List Nat)
  | 0, _, _, _, [] => some []
  | 0, _, _, _, b :: bs =>
    if b < 0x80 then (utf8Run 0 0 0 0 bs).map (fun cs => b :: cs)
    else if b < 0xC2 then none
    else if b < 0xE0 then utf8Run 1 (b - 0xC0) 0x80 0xC0 bs
    else if b < 0xF0 then
      utf8Run 2 (b - 0xE0) (if b = 0xE0 then 0xA0 else 0x80)
        (if b = 0xED then 0xA0 else 0xC0) bs
    else if b < 0xF5 then
      utf8Run 3 (b - 0xF0) (if b = 0xF0 then 0x90 else 0x80)
        (if b = 0xF4 then 0x90 else 0xC0) bs
    else none
  | _ + 1, _, _, _, [] => none
  | 1, acc, lo, hi, b :: bs =>
    if lo ≤ b ∧ b < hi then
      (utf8Run 0 0 0 0 bs).map (fun cs => (acc * 64 + (b - 0x80)) :: cs)
    else none
  | p + 2, acc, lo, hi, b :: bs =>
    if lo ≤ b ∧ b < hi then utf8Run (p + 1) (acc * 64 + (b - 0x80)) 0x80 0xC0 bs
    else none

/-- Decoding a byte string: the scalar values, or none when not valid UTF-8. -/
def utf8Decode (bs : List Nat) : Option (List Nat) := utf8Run 0 0 0 0 bs

/-- ASCII code of one uppercase hexadecimal digit. -/
def hexDigitChar (n : Nat) : Nat := if n < 10 then 48 + n else 55 + n

/-- Accumulator loop producing the uppercase hexadecimal digits of n; the fuel
argument only bounds the recursion and n + 1 is always enough, since the loop
divides n by 16 at every step. -/
def hexDigitsCore : Nat → Nat → Bytes → Bytes
  | 0, _, acc => acc
  | fuel + 1, n, acc =>
    if n < 16 then hexDigitChar n :: acc
    else hexDigitsCore fuel (n / 16) (hexDigitChar (n % 16) :: acc)

/-- The uppercase hexadecimal digits of n, most significant first. -/
def hexDigits (n : Nat) : Bytes := hexDigitsCore (n + 1) n []

/-- Rust formatting with the 08X specifier: at least eight uppercase
hexadecimal digits, left padded with zeros. -/
def hexPad8 (n : Nat) : Bytes := List.replicate (8 - (hexDigits n).length) 48 ++ hexDigits n

/-- Accumulator loop producing the decimal digits of n (fuel as above). -/
def decDigitsCore : Nat → Nat → Bytes → Bytes
  | 0, _, acc => acc
  | fuel + 1, n, acc =>
    if n < 10 then (48 + n) :: acc
    else decDigitsCore fuel (n / 10) ((48 + n % 10) :: acc)

/-- Rust Display formatting of an unsigned integer. -/
def decNat (n : Nat) : Bytes := decDigitsCore (n + 1) n []

/-- The bytes of a Lean string literal, used to write ASCII C-string contents. -/
def litBytes (s : String) : Bytes := utf8Encode (s.data.map Char.toNat)

/-- The flag bit marking the extra-data slot of an error record as text
(value taken from the backend's public header, re-exported by the ffi crate). -/
def ERR_TXT_STRING : Nat := 2

/-- The flag bit marking the extra-data buffer as dynamically allocated by the
backend's allocator (same provenance as ERR_TXT_STRING). -/
def ERR_TXT_MALLOCED : Nat := 1

/-- Modelled from the spec: backend code bit-unpacking accessor for the
library id (bits 24-31 of the packed code). -/
def ERR_GET_LIB (c : Nat) : Nat := c / 16777216 % 256

/-- Modelled from the spec: backend code bit-unpacking accessor for the
function id (bits 12-23 of the packed code). -/
def ERR_GET_FUNC (c : Nat) : Nat := c / 4096 % 4096

/-- Modelled from the spec: backend code bit-unpacking accessor for the
reason id (bits 0-11 of the packed code). -/
def ERR_GET_REASON (c : Nat) : Nat := c % 4096

/-- Modelled from the spec: the backend's bit-packing of a library id,
function id and reason id into one error code (inverse of the unpacking
accessors above). -/
def ERR_PACK (l f r : Nat) : Nat := l % 256 * 16777216 + f % 4096 * 4096 + r % 4096

/-- The kinds of hard failure (Rust panics / assertion aborts) the embedded
code can raise; these are unrecoverable and distinct from ErrorStack results. -/
inductive PanicKind where
  | assertFailed
  | invalidUtf8
  deriving DecidableEq

/-- One raw record of the backend's thread-local error queue: packed code,
source file and line, optional extra-data pointer contents, and flags word. -/
structure RawError where
  code : Nat
  file : Bytes
  line : Int
  data : Option Bytes
  flags : Nat
  deriving DecidableEq

/-- The backend's thread-local error queue, oldest record first. -/
structure BackendState where
  queue : List RawError
  deriving DecidableEq

/-- Rust's Cow of a str: either an owned copy or a borrowed reference.  Both
sides carry the text's bytes; the tag records ownership. -/
inductive CowData where
  | owned (bytes : Bytes)
  | borrowed (bytes : Bytes)
  deriving DecidableEq

/-- The Error struct of error.rs: code, file pointer, line, optional function
name pointer, and optional extra data. -/
structure Error where
  code : Nat
  file : Bytes
  line : Int
  func : Option Bytes
  data : Option CowData
  deriving DecidableEq

/-- The ErrorStack struct of error.rs: a vector of Error records. -/
structure ErrorStack where
  errors : List Error
  deriving DecidableEq

/-- The out-parameters filled by the combined pop accessor: code, file, line,
function name, extra-data pointer and flags. -/
structure PopResult where
  code : Nat
  file : Bytes
  line : Int
  func : Option Bytes
  data : Option Bytes
  flags : Nat
  deriving DecidableEq

/-- Modelled from the spec: the backend's static name-lookup primitives
(code to library name, code to function name, code to reason text); each
returns a static string or null. -/
structure Lookups where
  libStr : Nat → Option Bytes
  funcStr : Nat → Option Bytes
  reasonStr : Nat → Option Bytes

/-- Modelled from the spec: the backend's idempotent lazy global
initialization; it has no observable effect on the error queue. -/
def ffiInit (s : BackendState) : BackendState := s

/-- Modelled from the spec: the legacy pop-oldest backend primitive
(ERR_get_error_line_data).  On an empty queue it returns code zero and leaves
the out-parameters at their caller-initialized values (null / zero);
otherwise it removes the oldest record and returns its fields.  The func
out-parameter is not produced by this primitive. -/
def ERR_get_error_line_data (s : BackendState) : PopResult × BackendState :=
  match s.queue with
  | [] => (⟨0, [], 0, none, none, 0⟩, s)
  | r :: rest => (⟨r.code, r.file, r.line, none, r.data, r.flags⟩, ⟨rest⟩)

/-- The combined pop accessor synthesized in error.rs for backends lacking it:
pop the oldest record with the legacy primitive, then resolve the function
name from the popped code with the lookup primitive. -/
def ERR_get_error_all (L : Lookups) (s : BackendState) : PopResult × BackendState :=
  let pr := ERR_get_error_line_data s
  ({ pr.1 with func := L.funcStr pr.1.code }, pr.2)

/-- Modelled from the spec: the legacy push backend primitive
(ERR_put_error): appends a record whose code is the bit-packing of the given
ids, with the given file and line, and with the extra-data slot cleared. -/
def ERR_put_error (lib func reason : Nat) (file : Bytes) (line : Int)
    (s : BackendState) : BackendState :=
  ⟨s.queue ++ [⟨ERR_PACK lib func reason, file, line, none, 0⟩]⟩

/-- Replaces the data and flags of the last (most recently pushed) record. -/
def setLastData (d : Bytes) (f : Nat) : List RawError → List RawError
  | [] => []
  | [r] => [{ r with data := some d, flags := f }]
  | r :: rest => r :: setLastData d f rest

/-- Modelled from the spec: the backend primitive attaching extra data to the
most recently pushed record (ERR_set_error_data). -/
def ERR_set_error_data (d : Bytes) (f : Nat) (s : BackendState) : BackendState :=
  ⟨setLastData d f s.queue⟩

/-- Error::get of error.rs: initialize the backend, pop the oldest record
through the combined accessor, and on a nonzero code build an Error record;
extra data is read only when the flags mark it as text, is validated as UTF-8
(a hard failure on violation), and is copied into an owned string exactly when
the flags mark the buffer as dynamically allocated. -/
def Error.get (L : Lookups) (s : BackendState) :
    Except PanicKind (Option Error × BackendState) :=
  let s0 := ffiInit s
  let pr := ERR_get_error_all L s0
  let p := pr.1
  let s1 := pr.2
  if p.code = 0 then .ok (none, s1)
  else
    if p.flags &&& ERR_TXT_STRING ≠ 0 then
      match utf8Decode (p.data.getD []) with
      | none => .error .invalidUtf8
      | some _ =>
        let d :=
          if p.flags &&& ERR_TXT_MALLOCED ≠ 0 then CowData.owned (p.data.getD [])
          else CowData.borrowed (p.data.getD [])
        .ok (some ⟨p.code, p.file, p.line, p.func, some d⟩, s1)
    else .ok (some ⟨p.code, p.file, p.line, p.func, none⟩, s1)

/-- The while-let drain loop of ErrorStack::get, with an explicit fuel bound.
Every iteration that continues removes one record from the queue, so
queue length + 1 calls always suffice and the fuel-exhaustion default is
unreachable for the fuel ErrorStack.get passes (getLoop_fuel_free below). -/
def getLoop (L : Lookups) : Nat → BackendState → Except PanicKind (List Error × BackendState)
  | 0, s => .ok ([], s)
  | fuel + 1, s =>
    match Error.get L s with
    | .error k => .error k
    | .ok (none, s1) => .ok ([], s1)
    | .ok (some e, s1) =>
      match getLoop L fuel s1 with
      | .error k => .error k
      | .ok (v, s2) => .ok (e :: v, s2)

/-- ErrorStack::get of error.rs: repeatedly call Error::get, collecting the
returned records in order until it signals empty. -/
def ErrorStack.get (L : Lookups) (s : BackendState) :
    Except PanicKind (ErrorStack × BackendState) :=
  match getLoop L (s.queue.length + 1) s with
  | .error k => .error k
  | .ok (v, s1) => .ok (⟨v⟩, s1)

/-- The put_error helper of error.rs in the legacy configuration: push the
record through ERR_put_error with the ids unpacked from the stored code. -/
def Error.put_error (e : Error) (s : BackendState) : BackendState :=
  ERR_put_error (ERR_GET_LIB e.code) (ERR_GET_FUNC e.code) (ERR_GET_REASON e.code)
    e.file e.line s

/-- Error::put of error.rs: push the record back, then re-attach the extra
data.  Borrowed data is passed as a pointer with no ownership flag; owned data
is first re-copied into backend-allocated memory — the allocNull argument
models the backend allocator returning null, in which case the set-data call
is skipped entirely.  When data was attached, the text flag is always set. -/
def Error.put (allocNull : Bool) (e : Error) (s : BackendState) : BackendState :=
  let s1 := Error.put_error e s
  let dataOpt : Option (Bytes × Nat) :=
    match e.data with
    | some (CowData.borrowed d) => some (d, 0)
    | some (CowData.owned d) =>
      if allocNull then none else some (d, ERR_TXT_MALLOCED)
    | none => none
  match dataOpt with
  | some (d, f) => ERR_set_error_data d (f ||| ERR_TXT_STRING) s1
  | none => s1

/-- ErrorStack::put of error.rs: replay every record, oldest first. -/
def ErrorStack.put (allocNull : Bool) (st : ErrorStack) (s : BackendState) : BackendState :=
  st.errors.foldl (fun acc e => Error.put allocNull e acc) s

/-- The extra data Error::get derives from a raw data slot and flags word. -/
def extractData (data : Option Bytes) (flags : Nat) : Option CowData :=
  if flags &&& ERR_TXT_STRING ≠ 0 then
    some (if flags &&& ERR_TXT_MALLOCED ≠ 0 then CowData.owned (data.getD [])
      else CowData.borrowed (data.getD []))
  else none

/-- The Error record Error::get builds from one raw queue record. -/
def extract (L : Lookups) (r : RawError) : Error :=
  ⟨r.code, r.file, r.line, L.funcStr r.code, extractData r.data r.flags⟩

/-- The raw record Error::put pushes onto the queue (allocNull as in
Error.put). -/
def replayRec (allocNull : Bool) (e : Error) : RawError :=
  let base : RawError :=
    ⟨ERR_PACK (ERR_GET_LIB e.code) (ERR_GET_FUNC e.code) (ERR_GET_REASON e.code),
      e.file, e.line, none, 0⟩
  match e.data with
  | some (CowData.borrowed d) => { base with data := some d, flags := 0 ||| ERR_TXT_STRING }
  | some (CowData.owned d) =>
    if allocNull then base
    else { base with data := some d, flags := ERR_TXT_MALLOCED ||| ERR_TXT_STRING }
  | none => base

/-- A well-formed raw record, as the backend contract guarantees: a nonzero
code that fits the 32-bit packed layout, and, when the flags mark the data
slot as text, a non-null data pointer to valid UTF-8 bytes. -/
def WFraw (r : RawError) : Prop :=
  r.code ≠ 0 ∧ r.code < 4294967296 ∧
    (r.flags &&& ERR_TXT_STRING ≠ 0 →
      r.data.isSome = true ∧ (utf8Decode (r.data.getD [])).isSome = true)

instance (r : RawError) : Decidable (WFraw r) := by
  unfold WFraw; infer_instance

/-- A backend state whose queue consists of well-formed records. -/
def WFstate (s : BackendState) : Prop := ∀ r ∈ s.queue, WFraw r

instance (s : BackendState) : Decidable (WFstate s) := by
  unfold WFstate; infer_instance

/-- The observable fields the round-trip claim compares at each position:
code, file, line, presence of the function name, and extra-data text. -/
def obsFields (e : Error) : Nat × Bytes × Int × Bool × Option Bytes :=
  (e.code, e.file, e.line, e.func.isSome,
    e.data.map (fun d => match d with | CowData.owned b => b | CowData.borrowed b => b))

/-- The data accessor of error.rs: the text of the extra data, owned or
borrowed, when present. -/
def Error.dataBytes (e : Error) : Option Bytes :=
  e.data.map (fun d => match d with | CowData.owned b => b | CowData.borrowed b => b)

/-- The line accessor of error.rs: the stored c_int reinterpreted as u32. -/
def Error.lineU32 (e : Error) : Nat := (e.line % 4294967296).toNat

/-- The Display implementation for Error in error.rs: the code as 08X hex,
then the library name (or a fallback embedding the raw library id), the
function name (or a fallback with the raw function id), the reason (or a
fallback with the raw reason id), then file, line and data-or-empty, all
colon separated. -/
def Error.display (L : Lookups) (e : Error) : Bytes :=
  litBytes ("error:") ++ hexPad8 e.code ++
  (match L.libStr e.code with
    | some l => litBytes (":") ++ l
    | none => litBytes (":lib(") ++ decNat (ERR_GET_LIB e.code) ++ litBytes (")")) ++
  (match e.func with
    | some f => litBytes (":") ++ f
    | none => litBytes (":func(") ++ decNat (ERR_GET_FUNC e.code) ++ litBytes (")")) ++
  (match L.reasonStr e.code with
    | some r => litBytes (":") ++ r
    | none => litBytes (":reason(") ++ decNat (ERR_GET_REASON e.code) ++ litBytes (")")) ++
  litBytes (":") ++ e.file ++ litBytes (":") ++ decNat e.lineU32 ++
  litBytes (":") ++ (Error.dataBytes e).getD []

/-- The record-joining loop of the Display implementation for ErrorStack:
a comma-space separator before every record except the first. -/
def displayGo (L : Lookups) : List Error → Bool → Bytes
  | [], _ => []
  | e :: rest, first =>
    (if first then [] else litBytes (", ")) ++ Error.display L e ++ displayGo L rest false

/-- The Display implementation for ErrorStack in error.rs: a fixed generic
message for an empty stack, otherwise the comma-joined records in order. -/
def ErrorStack.display (L : Lookups) (st : ErrorStack) : Bytes :=
  if st.errors = [] then litBytes ("OpenSSL error")
  else displayGo L st.errors true

/-- The kind tag of Rust's std io::Error as used by error.rs. -/
inductive IoErrorKind where
  | other
  deriving DecidableEq

/-- Rust's std io::Error as produced by io::Error::new(kind, payload): it
stores the boxed payload, whose rendering is the io error's message. -/
structure IoError where
  kind : IoErrorKind
  payload : ErrorStack
  deriving DecidableEq

/-- The From conversion of error.rs from ErrorStack to io::Error. -/
def ioErrorFrom (e : ErrorStack) : IoError := ⟨IoErrorKind.other, e⟩

/-- The message an io::Error presents: the rendering of its payload. -/
def IoError.message (L : Lookups) (ioe : IoError) : Bytes := ioe.payload.display L

/-- Rust's std fmt::Error: a fieldless unit struct carrying no information. -/
inductive FmtError where
  | mk
  deriving DecidableEq

/-- The From conversion of error.rs from ErrorStack to fmt::Error: the stack
is dropped and the unit value returned. -/
def fmtErrorFrom (_ : ErrorStack) : FmtError := FmtError.mk

/-- The largest value of the c_int length parameter rand.rs asserts against. -/
def c_int_max : Nat := 2147483647

/-- One invocation's behaviour of the backend byte-fill primitive: its return
code, the bytes it writes, and the diagnostics it pushes onto the queue. -/
structure RandCall where
  ret : Int
  output : Bytes
  errs : List RawError

/-- Modelled from the spec: the backend random-byte-fill primitive
(RAND_bytes): fills the buffer, appends its diagnostics to the thread's
queue, and returns its status code. -/
def RAND_bytes (rc : RandCall) (bufLen : Nat) (s : BackendState) :
    Int × Bytes × BackendState :=
  (rc.ret, rc.output.take bufLen, ⟨s.queue ++ rc.errs⟩)

/-- Modelled from the spec: the crate-internal cvt helper wrapping a backend
return code (for this backend variant, failure is a return value at most
zero): on failure it drains the error queue and returns it as the error. -/
def cvt (L : Lookups) (r : Int) (s : BackendState) :
    Except PanicKind (Except ErrorStack Int × BackendState) :=
  if r ≤ 0 then
    match ErrorStack.get L s with
    | .error k => .error k
    | .ok (st, s1) => .ok (.error st, s1)
  else .ok (.ok r, s)

/-- rand_bytes of rand.rs: initialize the backend, assert the buffer length
fits in c_int (a hard failure otherwise), call the fill primitive, and
translate its return code through cvt, discarding the success value. -/
def rand_bytes (L : Lookups) (rc : RandCall) (bufLen : Nat) (s : BackendState) :
    Except PanicKind (Except ErrorStack Unit × BackendState) :=
  let s0 := ffiInit s
  if bufLen ≤ c_int_max then
    let res := RAND_bytes rc bufLen s0
    match cvt L res.1 res.2.2 with
    | .error k => .error k
    | .ok (r, s1) => .ok (r.map (fun _ => ()), s1)
  else .error .assertFailed

/-- A lookup table with every name unresolvable, for concrete instances. -/
def L0 : Lookups := ⟨fun _ => none, fun _ => none, fun _ => none⟩

/-- A lookup table with fixed resolvable names, for concrete instances. -/
def L1 : Lookups :=
  ⟨fun _ => some (litBytes ("SSL")), fun _ => some (litBytes ("fn")),
    fun _ => some (litBytes ("bad"))⟩

/-- A concrete record with no extra data. -/
def rawA : RawError := ⟨1, litBytes ("f.c"), 3, none, 0⟩

/-- A concrete record with owned (malloced) extra data. -/
def rawB : RawError := ⟨2, litBytes ("g.c"), 7, some (litBytes ("hi")), 3⟩

/-- A concrete record with borrowed (static) extra data. -/
def rawC : RawError := ⟨3, litBytes ("h.c"), 9, some (litBytes ("yo")), 2⟩

/-- A concrete record whose text data is not valid UTF-8. -/
def rawBad : RawError := ⟨4, litBytes ("i.c"), 1, some [255], 2⟩

/-- A concrete three-record backend state. -/
def c1s0 : BackendState := ⟨[rawA, rawB, rawC]⟩

/-- The stack drained from c1s0 under the L0 lookups. -/
def c1S : ErrorStack := ⟨c1s0.queue.map (extract L0)⟩

/-- A failing byte-fill call that pushes one diagnostic. -/
def rcFail : RandCall := ⟨0, [], [rawB]⟩

/-- A successful byte-fill call. -/
def rcOk : RandCall := ⟨1, [7, 7, 7, 7], []⟩

/-- A concrete Error with resolvable names under L1. -/
def errW : Error :=
  ⟨258, litBytes ("f.c"), 5, some (litBytes ("fn")),
    some (CowData.borrowed (litBytes ("data")))⟩

/-- A concrete Error carrying an owned data payload. -/
def errOwned : Error :=
  ⟨5, litBytes ("f.c"), 2, none, some (CowData.owned (litBytes ("hi")))⟩

/-- A concrete one-record stack whose rendering differs from the empty one. -/
def stC9 : ErrorStack := ⟨[⟨1, [], 0, none, none⟩]⟩

/-- Decoding an encoded scalar at the head of a byte stream peels off exactly
that scalar. -/
theorem utf8Decode_encodeChar (c : Nat) (h : validScalar c) (bs : List Nat) :
    utf8Decode (utf8EncodeChar c ++ bs) = (utf8Decode bs).map (fun cs => c :: cs) := by
  obtain ⟨hlt, hsur⟩ := h
  unfold utf8Decode
  by_cases h1 : c < 0x80
  · rw [utf8EncodeChar, if_pos h1, List.cons_append, List.nil_append, utf8Run, if_pos h1]
  · by_cases h2 : c < 0x800
    · rw [utf8EncodeChar, if_neg h1, if_pos h2, List.cons_append, List.cons_append,
        List.nil_append, utf8Run]
      rw [if_neg (by omega), if_neg (by omega), if_pos (by omega), utf8Run,
        if_pos (by omega : 0x80 ≤ 0x80 + c % 64 ∧ 0x80 + c % 64 < 0xC0),
        show (0xC0 + c / 64 - 0xC0) * 64 + (0x80 + c % 64 - 0x80) = c by omega]
    · by_cases h3 : c < 0x10000
      · rw [utf8EncodeChar, if_neg h1, if_neg h2, if_pos h3, List.cons_append,
          List.cons_append, List.cons_append, List.nil_append, utf8Run]
        rw [if_neg (by omega), if_neg (by omega), if_neg (by omega), if_pos (by omega)]
        have hscal :
            ((0xE0 + c / 4096 - 0xE0) * 64 + (0x80 + c / 64 % 64 - 0x80)) * 64 +
              (0x80 + c % 64 - 0x80) = c := by omega
        have hc2 : 0x80 ≤ 0x80 + c % 64 ∧ 0x80 + c % 64 < 0xC0 := by omega
        by_cases he0 : c < 0x1000
        · rw [if_pos (by omega : 0xE0 + c / 4096 = 0xE0),
            if_neg (by omega : ¬ 0xE0 + c / 4096 = 0xED), utf8Run,
            if_pos (by omega), utf8Run, if_pos hc2, hscal]
        · by_cases hed : c / 4096 = 13
          · rw [if_neg (by omega : ¬ 0xE0 + c / 4096 = 0xE0),
              if_pos (by omega : 0xE0 + c / 4096 = 0xED), utf8Run,
              if_pos (by omega), utf8Run, if_pos hc2, hscal]
          · rw [if_neg (by omega : ¬ 0xE0 + c / 4096 = 0xE0),
              if_neg (by omega : ¬ 0xE0 + c / 4096 = 0xED), utf8Run,
              if_pos (by omega), utf8Run, if_pos hc2, hscal]
      · rw [utf8EncodeChar, if_neg h1, if_neg h2, if_neg h3, List.cons_append,
          List.cons_append, List.cons_append, List.cons_append, List.nil_append, utf8Run]
        rw [if_neg (by omega), if_neg (by omega), if_neg (by omega), if_neg (by omega),
          if_pos (by omega)]
        have hscal :
            (((0xF0 + c / 262144 - 0xF0) * 64 + (0x80 + c / 4096 % 64 - 0x80)) * 64 +
              (0x80 + c / 64 % 64 - 0x80)) * 64 + (0x80 + c % 64 - 0x80) = c := by omega
        have hc2 : 0x80 ≤ 0x80 + c / 64 % 64 ∧ 0x80 + c / 64 % 64 < 0xC0 := by omega
        have hc3 : 0x80 ≤ 0x80 + c % 64 ∧ 0x80 + c % 64 < 0xC0 := by omega
        by_cases hf0 : c < 0x40000
        · rw [if_pos (by omega : 0xF0 + c / 262144 = 0xF0),
            if_neg (by omega : ¬ 0xF0 + c / 262144 = 0xF4), utf8Run,
            if_pos (by omega), utf8Run, if_pos hc2, utf8Run, if_pos hc3, hscal]
        · by_cases hf4 : 0x100000 ≤ c
          · rw [if_neg (by omega : ¬ 0xF0 + c / 262144 = 0xF0),
              if_pos (by omega : 0xF0 + c / 262144 = 0xF4), utf8Run,
              if_pos (by omega), utf8Run, if_pos hc2, utf8Run, if_pos hc3, hscal]
          · rw [if_neg (by omega : ¬ 0xF0 + c / 262144 = 0xF0),
              if_neg (by omega : ¬ 0xF0 + c / 262144 = 0xF4), utf8Run,
              if_pos (by omega), utf8Run, if_pos hc2, utf8Run, if_pos hc3, hscal]

/-- The strict decoder accepts every well-formed encoding: decoding is a left
inverse of encoding on sequences of Unicode scalar values. -/
theorem utf8Decode_encode (cs : List Nat) (h : ∀ c ∈ cs, validScalar c) :
    utf8Decode (utf8Encode cs) = some cs := by
  induction cs with
  | nil => rfl
  | cons c rest ih =>
    have hc : validScalar c := h c (by simp)
    have hrest : ∀ x ∈ rest, validScalar x := fun x hx => h x (by simp [hx])
    have henc : utf8Encode (c :: rest) = utf8EncodeChar c ++ utf8Encode rest := by
      simp [utf8Encode]
    rw [henc, utf8Decode_encodeChar c hc, ih hrest]
    rfl

/-- Unpacking a 32-bit packed code and re-packing the three ids restores the
code. -/
theorem pack_unpack (c : Nat) (h : c < 4294967296) :
    ERR_PACK (ERR_GET_LIB c) (ERR_GET_FUNC c) (ERR_GET_REASON c) = c := by
  unfold ERR_PACK ERR_GET_LIB ERR_GET_FUNC ERR_GET_REASON
  omega

/-- Error::get on an empty queue signals empty and leaves the state as is. -/
theorem Error.get_nil (L : Lookups) : Error.get L ⟨[]⟩ = .ok (none, ⟨[]⟩) := rfl

/-- Error::get on a well-formed head record returns its extraction and pops
the queue. -/
theorem Error.get_cons (L : Lookups) (r : RawError) (rest : List RawError) (h : WFraw r) :
    Error.get L ⟨r :: rest⟩ = .ok (some (extract L r), ⟨rest⟩) := by
  obtain ⟨hc, _, hdata⟩ := h
  unfold Error.get ERR_get_error_all ERR_get_error_line_data ffiInit
  dsimp only
  rw [if_neg hc]
  by_cases hflag : r.flags &&& ERR_TXT_STRING ≠ 0
  · obtain ⟨_, hdec⟩ := hdata hflag
    obtain ⟨cs, hcs⟩ := Option.isSome_iff_exists.mp hdec
    rw [if_pos hflag, hcs]
    unfold extract extractData
    rw [if_pos hflag]
  · rw [if_neg hflag]
    unfold extract extractData
    rw [if_neg hflag]

/-- Whatever Error::get returns on a nonempty queue, it either raises the
UTF-8 hard failure or hands back the popped state. -/
theorem Error.get_cases (L : Lookups) (r : RawError) (rest : List RawError) :
    Error.get L ⟨r :: rest⟩ = .error .invalidUtf8 ∨
      ∃ x, Error.get L ⟨r :: rest⟩ = .ok (x, ⟨rest⟩) := by
  unfold Error.get ERR_get_error_all ERR_get_error_line_data ffiInit
  dsimp only
  by_cases hc : r.code = 0
  · rw [if_pos hc]
    exact Or.inr ⟨none, rfl⟩
  · rw [if_neg hc]
    by_cases hflag : r.flags &&& ERR_TXT_STRING ≠ 0
    · rw [if_pos hflag]
      cases hdec : utf8Decode (r.data.getD []) with
      | none => exact Or.inl rfl
      | some cs => exact Or.inr ⟨_, rfl⟩
    · rw [if_neg hflag]
      exact Or.inr ⟨_, rfl⟩

/-- The fuel ErrorStack::get passes to the drain loop is semantically inert:
any fuel above the queue length gives the same result, so the
fuel-exhaustion default of getLoop is unreachable. -/
theorem getLoop_fuel_free (L : Lookups) :
    ∀ (q : List RawError) (fuel : Nat), q.length < fuel →
      getLoop L fuel ⟨q⟩ = getLoop L (q.length + 1) ⟨q⟩ := by
  intro q
  induction q with
  | nil =>
    intro fuel hf
    obtain ⟨f, rfl⟩ : ∃ f, fuel = f + 1 := ⟨fuel - 1, by omega⟩
    rw [getLoop, getLoop, Error.get_nil]
  | cons r rest ih =>
    intro fuel hf
    obtain ⟨f, rfl⟩ : ∃ f, fuel = f + 1 := ⟨fuel - 1, by omega⟩
    rcases Error.get_cases L r rest with herr | ⟨x, hok⟩
    · rw [getLoop, getLoop, herr]
    · cases x with
      | none => rw [getLoop, getLoop, hok]
      | some e =>
        rw [getLoop, getLoop, hok]
        dsimp only
        have hlen : rest.length < f := by
          simpa using Nat.lt_of_succ_lt_succ hf
        rw [ih f hlen, show (r :: rest).length = rest.length + 1 by simp,
          ih (rest.length + 1) (by omega)]

/-- With enough fuel, the drain loop on a well-formed queue returns every
record, extracted in order, and empties the queue. -/
theorem getLoop_drain (L : Lookups) :
    ∀ (fuel : Nat) (q : List RawError), q.length < fuel → (∀ r ∈ q, WFraw r) →
      getLoop L fuel ⟨q⟩ = .ok (q.map (extract L), ⟨[]⟩) := by
  intro fuel
  induction fuel with
  | zero => intro q h _; exact absurd h (Nat.not_lt_zero _)
  | succ fuel ih =>
    intro q hlen hwf
    cases q with
    | nil =>
      rw [getLoop, Error.get_nil]
      simp
    | cons r rest =>
      rw [getLoop, Error.get_cons L r rest (hwf r (by simp))]
      dsimp only
      rw [ih rest (by simpa using Nat.lt_of_succ_lt_succ hlen)
        (fun x hx => hwf x (by simp [hx]))]
      simp

/-- ErrorStack::get on a well-formed state drains the whole queue in order. -/
theorem ErrorStack.get_drain (L : Lookups) (s : BackendState) (h : WFstate s) :
    ErrorStack.get L s = .ok (⟨s.queue.map (extract L)⟩, ⟨[]⟩) := by
  obtain ⟨q⟩ := s
  unfold ErrorStack.get
  rw [getLoop_drain L (q.length + 1) q (by omega) h]

/-- The only hard failure Error::get can raise is the UTF-8 one. -/
theorem Error.get_panic_is_utf8 (L : Lookups) (s : BackendState) (k : PanicKind)
    (h : Error.get L s = .error k) : k = .invalidUtf8 := by
  obtain ⟨q⟩ := s
  cases q with
  | nil => rw [Error.get_nil] at h; exact absurd h (by simp)
  | cons r rest =>
    rcases Error.get_cases L r rest with herr | ⟨x, hok⟩
    · rw [herr] at h
      exact (Except.error.inj h).symm
    · rw [hok] at h
      exact absurd h (by simp)

/-- The only hard failure the drain loop can raise is the UTF-8 one. -/
theorem getLoop_error_kind (L : Lookups) :
    ∀ (fuel : Nat) (s : BackendState) (k : PanicKind),
      getLoop L fuel s = .error k → k = .invalidUtf8 := by
  intro fuel
  induction fuel with
  | zero => intro s k h; exact absurd h (by rw [getLoop]; simp)
  | succ fuel ih =>
    intro s k h
    rw [getLoop] at h
    cases hget : Error.get L s with
    | error k0 =>
      rw [hget] at h
      have := Error.get_panic_is_utf8 L s k0 hget
      simp only at h
      exact (Except.error.inj h).symm ▸ this
    | ok x =>
      obtain ⟨e, s1⟩ := x
      rw [hget] at h
      cases e with
      | none => exact absurd h (by simp)
      | some e0 =>
        simp only at h
        cases hloop : getLoop L fuel s1 with
        | error k1 =>
          rw [hloop] at h
          simp only at h
          exact (Except.error.inj h).symm ▸ ih s1 k1 hloop
        | ok y =>
          rw [hloop] at h
          exact absurd h (by simp)

/-- The only hard failure ErrorStack::get can raise is the UTF-8 one. -/
theorem ErrorStack.drain_panic_is_utf8 (L : Lookups) (s : BackendState) (k : PanicKind)
    (h : ErrorStack.get L s = .error k) : k = .invalidUtf8 := by
  unfold ErrorStack.get at h
  cases hloop : getLoop L (s.queue.length + 1) s with
  | error k1 =>
    rw [hloop] at h
    simp only at h
    exact (Except.error.inj h).symm ▸ getLoop_error_kind L _ s k1 hloop
  | ok y =>
    rw [hloop] at h
    exact absurd h (by simp)

/-- Setting the data of the last record rewrites exactly that record. -/
theorem setLastData_append (d : Bytes) (f : Nat) (q : List RawError) (r : RawError) :
    setLastData d f (q ++ [r]) = q ++ [{ r with data := some d, flags := f }] := by
  induction q with
  | nil => rfl
  | cons a q' ih =>
    cases q' with
    | nil => rfl
    | cons b q'' =>
      simp only [List.cons_append, List.append_eq, setLastData] at ih ⊢
      rw [ih]

/-- Error::put appends exactly the replayed record to the queue. -/
theorem Error.put_append (allocNull : Bool) (e : Error) (s : BackendState) :
    Error.put allocNull e s = ⟨s.queue ++ [replayRec allocNull e]⟩ := by
  obtain ⟨c, fil, ln, fn, dt⟩ := e
  obtain ⟨q⟩ := s
  cases dt with
  | none => rfl
  | some cd =>
    cases cd with
    | borrowed d =>
      simp [Error.put, Error.put_error, ERR_put_error, ERR_set_error_data, replayRec,
        setLastData_append]
    | owned d =>
      cases allocNull with
      | false =>
        simp [Error.put, Error.put_error, ERR_put_error, ERR_set_error_data, replayRec,
          setLastData_append]
      | true => rfl

/-- ErrorStack::put appends the replayed records, in stack order. -/
theorem ErrorStack.put_appends_replays (allocNull : Bool) (st : ErrorStack) (s : BackendState) :
    ErrorStack.put allocNull st s = ⟨s.queue ++ st.errors.map (replayRec allocNull)⟩ := by
  obtain ⟨es⟩ := st
  induction es generalizing s with
  | nil => simp [ErrorStack.put]
  | cons e es ih =>
    rw [show ErrorStack.put allocNull ⟨e :: es⟩ s =
        ErrorStack.put allocNull ⟨es⟩ (Error.put allocNull e s) from rfl]
    rw [ih (Error.put allocNull e s), Error.put_append]
    simp

/-- A packed code always fits the 32-bit layout. -/
theorem ERR_PACK_lt (l f r : Nat) : ERR_PACK l f r < 4294967296 := by
  unfold ERR_PACK
  omega

/-- Extracting the record replayed (with a live allocator) from a well-formed
record gives back the original extraction: the whole Error value, ownership
tag included, survives the round trip. -/
theorem extract_replay (L : Lookups) (r : RawError) (h : WFraw r) :
    extract L (replayRec false (extract L r)) = extract L r := by
  obtain ⟨hc, hlt, hdata⟩ := h
  have hpack := pack_unpack r.code hlt
  by_cases hs : r.flags &&& ERR_TXT_STRING ≠ 0
  · by_cases hm : r.flags &&& ERR_TXT_MALLOCED ≠ 0
    · have h1 : extractData r.data r.flags = some (CowData.owned (r.data.getD [])) := by
        unfold extractData
        rw [if_pos hs, if_pos hm]
      have hrep : replayRec false (extract L r) =
          ⟨r.code, r.file, r.line, some (r.data.getD []),
            ERR_TXT_MALLOCED ||| ERR_TXT_STRING⟩ := by
        unfold replayRec extract
        rw [h1]
        simp only [Bool.false_eq_true, if_false, hpack]
      have h2 : extractData (some (r.data.getD [])) (ERR_TXT_MALLOCED ||| ERR_TXT_STRING) =
          some (CowData.owned (r.data.getD [])) := by
        unfold extractData
        rw [if_pos (by decide), if_pos (by decide)]
        rfl
      rw [hrep]
      unfold extract
      rw [h2, h1]
    · have h1 : extractData r.data r.flags = some (CowData.borrowed (r.data.getD [])) := by
        unfold extractData
        rw [if_pos hs, if_neg hm]
      have hrep : replayRec false (extract L r) =
          ⟨r.code, r.file, r.line, some (r.data.getD []), 0 ||| ERR_TXT_STRING⟩ := by
        unfold replayRec extract
        rw [h1]
        simp only [hpack]
      have h2 : extractData (some (r.data.getD [])) (0 ||| ERR_TXT_STRING) =
          some (CowData.borrowed (r.data.getD [])) := by
        unfold extractData
        rw [if_pos (by decide), if_neg (by decide)]
        rfl
      rw [hrep]
      unfold extract
      rw [h2, h1]
  · have h1 : extractData r.data r.flags = none := by
      unfold extractData
      rw [if_neg hs]
    have hrep : replayRec false (extract L r) = ⟨r.code, r.file, r.line, none, 0⟩ := by
      unfold replayRec extract
      rw [h1]
      simp only [hpack]
    have h2 : extractData (none : Option Bytes) 0 = none := by
      unfold extractData
      rw [if_neg (by decide)]
    rw [hrep]
    unfold extract
    rw [h2, h1]

/-- The record replayed from a well-formed record is itself well-formed. -/
theorem WFraw_replay (L : Lookups) (r : RawError) (h : WFraw r) :
    WFraw (replayRec false (extract L r)) := by
  obtain ⟨hc, hlt, hdata⟩ := h
  have hpack := pack_unpack r.code hlt
  by_cases hs : r.flags &&& ERR_TXT_STRING ≠ 0
  · obtain ⟨hsome, hdec⟩ := hdata hs
    by_cases hm : r.flags &&& ERR_TXT_MALLOCED ≠ 0
    · have h1 : extractData r.data r.flags = some (CowData.owned (r.data.getD [])) := by
        unfold extractData
        rw [if_pos hs, if_pos hm]
      have hrep : replayRec false (extract L r) =
          ⟨r.code, r.file, r.line, some (r.data.getD []),
            ERR_TXT_MALLOCED ||| ERR_TXT_STRING⟩ := by
        unfold replayRec extract
        rw [h1]
        simp only [Bool.false_eq_true, if_false, hpack]
      rw [hrep]
      exact ⟨hc, hlt, fun _ => ⟨rfl, hdec⟩⟩
    · have h1 : extractData r.data r.flags = some (CowData.borrowed (r.data.getD [])) := by
        unfold extractData
        rw [if_pos hs, if_neg hm]
      have hrep : replayRec false (extract L r) =
          ⟨r.code, r.file, r.line, some (r.data.getD []), 0 ||| ERR_TXT_STRING⟩ := by
        unfold replayRec extract
        rw [h1]
        simp only [hpack]
      rw [hrep]
      exact ⟨hc, hlt, fun _ => ⟨rfl, hdec⟩⟩
  · have h1 : extractData r.data r.flags = none := by
      unfold extractData
      rw [if_neg hs]
    have hrep : replayRec false (extract L r) = ⟨r.code, r.file, r.line, none, 0⟩ := by
      unfold replayRec extract
      rw [h1]
      simp only [hpack]
    rw [hrep]
    exact ⟨hc, hlt, fun h0 => absurd (show (0 : Nat) &&& ERR_TXT_STRING = 0 by decide) h0⟩

/-- Mapping two functions that agree on the elements gives equal lists. -/
theorem map_congr_mem {A B : Type} (l : List A) (f g : A → B)
    (h : ∀ a ∈ l, f a = g a) : l.map f = l.map g := by
  induction l with
  | nil => rfl
  | cons a l ih =>
    simp only [List.map_cons, h a (by simp)]
    rw [ih (fun x hx => h x (by simp [hx]))]

/-- Error::get on a head record with code zero reports empty (having popped). -/
theorem Error.get_code_zero (L : Lookups) (r : RawError) (rest : List RawError)
    (hc : r.code = 0) : Error.get L ⟨r :: rest⟩ = .ok (none, ⟨rest⟩) := by
  unfold Error.get ERR_get_error_all ERR_get_error_line_data ffiInit
  dsimp only
  rw [if_pos hc]

/-- Error::get on a head record with nonzero code never reports empty. -/
theorem Error.get_code_nonzero (L : Lookups) (r : RawError) (rest : List RawError)
    (hc : r.code ≠ 0) (s2 : BackendState) :
    Error.get L ⟨r :: rest⟩ ≠ .ok (none, s2) := by
  unfold Error.get ERR_get_error_all ERR_get_error_line_data ffiInit
  dsimp only
  rw [if_neg hc]
  by_cases hflag : r.flags &&& ERR_TXT_STRING ≠ 0
  · rw [if_pos hflag]
    cases hdec : utf8Decode (r.data.getD []) with
    | none => simp
    | some cs => simp
  · rw [if_neg hflag]
    simp

/-- Claim C1: for any ErrorStack obtained from ErrorStack::get on a
well-formed backend state, putting it back and immediately calling get again
yields a stack of the same length in which every position agrees with the
original on code, file, line, function-name presence and extra-data text, in
the same oldest-first order (obsFields collects exactly those fields). -/
theorem c1_get_put_get_roundtrip (L : Lookups) (s0 : BackendState) (hwf : WFstate s0)
    (S : ErrorStack) (s1 : BackendState)
    (hget : ErrorStack.get L s0 = .ok (S, s1)) :
    ∃ S2 s3, ErrorStack.get L (ErrorStack.put false S s1) = .ok (S2, s3) ∧
      S2.errors.length = S.errors.length ∧
      S2.errors.map obsFields = S.errors.map obsFields := by
  rw [ErrorStack.get_drain L s0 hwf] at hget
  obtain ⟨hA, hB⟩ := Prod.ext_iff.mp (Except.ok.inj hget)
  simp only at hA hB
  subst hA
  subst hB
  rw [ErrorStack.put_appends_replays]
  simp only [List.nil_append, List.map_map]
  have hwf2 : WFstate ⟨s0.queue.map (replayRec false ∘ extract L)⟩ := by
    intro x hx
    obtain ⟨r, hr, rfl⟩ := List.mem_map.mp hx
    exact WFraw_replay L r (hwf r hr)
  refine ⟨_, _, ErrorStack.get_drain L _ hwf2, by simp, ?_⟩
  simp only [List.map_map]
  refine map_congr_mem _ _ _ (fun r hr => ?_)
  have := extract_replay L r (hwf r hr)
  simp only [Function.comp_apply, this]

/-- Claim C1 witness: the round trip at a concrete three-record state. -/
theorem c1_get_put_get_roundtrip_witness :
    (WFstate c1s0 ∧ ErrorStack.get L0 c1s0 = .ok (c1S, ⟨[]⟩)) ∧
    (∃ S2 s3, ErrorStack.get L0 (ErrorStack.put false c1S ⟨[]⟩) = .ok (S2, s3) ∧
      S2.errors.length = c1S.errors.length ∧
      S2.errors.map obsFields = c1S.errors.map obsFields) :=
  ⟨⟨by decide, by rfl⟩,
    c1_get_put_get_roundtrip L0 c1s0 (by decide) c1S ⟨[]⟩ (by rfl)⟩

/-- Claim C2: ErrorStack::get drains the queue by repeated Error::get calls,
collecting the extracted records oldest first and emptying the queue; and
Error::get reports empty exactly when the combined accessor hands it a zero
code value. -/
theorem c2_drain_collects_in_order (L : Lookups) (s : BackendState) (hwf : WFstate s) :
    ErrorStack.get L s = .ok (⟨s.queue.map (extract L)⟩, ⟨[]⟩) ∧
    ∀ s1 : BackendState,
      (∃ s2, Error.get L s1 = .ok (none, s2)) ↔ (ERR_get_error_all L s1).1.code = 0 := by
  refine ⟨ErrorStack.get_drain L s hwf, ?_⟩
  intro s1
  obtain ⟨q⟩ := s1
  cases q with
  | nil =>
    constructor
    · intro _
      rfl
    · intro _
      exact ⟨⟨[]⟩, Error.get_nil L⟩
  | cons r rest =>
    have hcode : (ERR_get_error_all L ⟨r :: rest⟩).1.code = r.code := rfl
    rw [hcode]
    constructor
    · rintro ⟨s2, h⟩
      by_contra hc
      exact Error.get_code_nonzero L r rest hc s2 h
    · intro hc
      exact ⟨⟨rest⟩, Error.get_code_zero L r rest hc⟩

/-- Claim C2 witness: the drain at a concrete three-record state. -/
theorem c2_drain_collects_in_order_witness :
    WFstate c1s0 ∧
    (ErrorStack.get L0 c1s0 = .ok (⟨c1s0.queue.map (extract L0)⟩, ⟨[]⟩) ∧
      ∀ s1 : BackendState,
        (∃ s2, Error.get L0 s1 = .ok (none, s2)) ↔ (ERR_get_error_all L0 s1).1.code = 0) :=
  ⟨by decide, c2_drain_collects_in_order L0 c1s0 (by decide)⟩

/-- The only hard failure cvt can raise is the UTF-8 one (from the drain). -/
theorem cvt_error_kind (L : Lookups) (r : Int) (s : BackendState) (k : PanicKind)
    (h : cvt L r s = .error k) : k = .invalidUtf8 := by
  unfold cvt at h
  by_cases hr : r ≤ 0
  · rw [if_pos hr] at h
    cases hget : ErrorStack.get L s with
    | error k1 =>
      rw [hget] at h
      simp only at h
      exact (Except.error.inj h).symm ▸ ErrorStack.drain_panic_is_utf8 L s k1 hget
    | ok y =>
      rw [hget] at h
      exact absurd h (by simp)
  · rw [if_neg hr] at h
    exact absurd h (by simp)

/-- Claim C3: within the asserted length bound, rand_bytes returns, as its
error value, exactly the ErrorStack drained from the backend queue when the
fill primitive signals failure (a return value at most zero in this backend
variant), and succeeds with no value otherwise. -/
theorem c3_rand_bytes_translation (L : Lookups) (rc : RandCall) (bufLen : Nat)
    (s : BackendState) (hlen : bufLen ≤ c_int_max)
    (hwf : WFstate ⟨s.queue ++ rc.errs⟩) :
    (rc.ret ≤ 0 → rand_bytes L rc bufLen s =
      .ok (.error ⟨(s.queue ++ rc.errs).map (extract L)⟩, ⟨[]⟩)) ∧
    (0 < rc.ret → rand_bytes L rc bufLen s = .ok (.ok (), ⟨s.queue ++ rc.errs⟩)) := by
  constructor
  · intro hr
    unfold rand_bytes ffiInit RAND_bytes cvt
    rw [if_pos hlen]
    dsimp only
    rw [if_pos hr, ErrorStack.get_drain L ⟨s.queue ++ rc.errs⟩ hwf]
    rfl
  · intro hr
    unfold rand_bytes ffiInit RAND_bytes cvt
    rw [if_pos hlen]
    dsimp only
    rw [if_neg (by omega)]
    rfl

/-- Claim C3 witness: a failing fill call at an empty initial queue. -/
theorem c3_rand_bytes_translation_witness :
    (4 ≤ c_int_max ∧ WFstate ⟨([] : List RawError) ++ rcFail.errs⟩) ∧
    ((rcFail.ret ≤ 0 → rand_bytes L0 rcFail 4 ⟨[]⟩ =
        .ok (.error ⟨(([] : List RawError) ++ rcFail.errs).map (extract L0)⟩, ⟨[]⟩)) ∧
      (0 < rcFail.ret →
        rand_bytes L0 rcFail 4 ⟨[]⟩ = .ok (.ok (), ⟨([] : List RawError) ++ rcFail.errs⟩))) :=
  ⟨⟨by decide, by decide⟩,
    c3_rand_bytes_translation L0 rcFail 4 ⟨[]⟩ (by decide) (by decide)⟩

/-- Claim C4: a buffer longer than the backend's c_int maximum makes
rand_bytes fail through the assertion (a hard abort, not an ErrorStack
return value), and within the bound the assertion never fires: any hard
failure that remains possible is the UTF-8 one, never the assertion. -/
theorem c4_rand_bytes_assert (L : Lookups) (rc : RandCall) (bufLen : Nat)
    (s : BackendState) :
    (c_int_max < bufLen → rand_bytes L rc bufLen s = .error .assertFailed) ∧
    (bufLen ≤ c_int_max → rand_bytes L rc bufLen s ≠ .error .assertFailed) := by
  constructor
  · intro hr
    unfold rand_bytes ffiInit
    rw [if_neg (by omega)]
  · intro hr h
    unfold rand_bytes ffiInit at h
    rw [if_pos hr] at h
    dsimp only at h
    cases hc : cvt L (RAND_bytes rc bufLen s).1 (RAND_bytes rc bufLen s).2.2 with
    | error k =>
      rw [hc] at h
      simp only at h
      have := cvt_error_kind L _ _ k hc
      rw [this] at h
      exact absurd (Except.error.inj h) (by simp)
    | ok y =>
      rw [hc] at h
      exact absurd h (by simp)

/-- Claim C4 witness: one over-long call aborts, one in-bounds call does not. -/
theorem c4_rand_bytes_assert_witness :
    (c_int_max < 2147483648 ∧
      rand_bytes L0 rcOk 2147483648 ⟨[]⟩ = .error .assertFailed) ∧
    (4 ≤ c_int_max ∧ rand_bytes L0 rcOk 4 ⟨[]⟩ ≠ .error .assertFailed) :=
  ⟨⟨by decide, (c4_rand_bytes_assert L0 rcOk 2147483648 ⟨[]⟩).1 (by decide)⟩,
    ⟨by decide, (c4_rand_bytes_assert L0 rcOk 4 ⟨[]⟩).2 (by decide)⟩⟩

/-- Claim C5: in Error::get, when the flags word does not mark the data slot
as text the extracted record's extra data is absent whatever the pointer
holds; when it does, the data is captured as an owned copy exactly when the
flags also mark the buffer as malloced, and as a borrowed reference
otherwise — the ownership decision is taken inside this single extraction
call. -/
theorem c5_extra_data_handling (L : Lookups) (r : RawError) (rest : List RawError)
    (hc : r.code ≠ 0) :
    (r.flags &&& ERR_TXT_STRING = 0 →
      Error.get L ⟨r :: rest⟩ =
        .ok (some ⟨r.code, r.file, r.line, L.funcStr r.code, none⟩, ⟨rest⟩)) ∧
    (r.flags &&& ERR_TXT_STRING ≠ 0 → (utf8Decode (r.data.getD [])).isSome = true →
      Error.get L ⟨r :: rest⟩ =
        .ok (some ⟨r.code, r.file, r.line, L.funcStr r.code,
          some (if r.flags &&& ERR_TXT_MALLOCED ≠ 0 then CowData.owned (r.data.getD [])
            else CowData.borrowed (r.data.getD []))⟩, ⟨rest⟩)) := by
  constructor
  · intro hflag
    unfold Error.get ERR_get_error_all ERR_get_error_line_data ffiInit
    dsimp only
    rw [if_neg hc, if_neg (by simpa using hflag)]
  · intro hflag hdec
    obtain ⟨cs, hcs⟩ := Option.isSome_iff_exists.mp hdec
    unfold Error.get ERR_get_error_all ERR_get_error_line_data ffiInit
    dsimp only
    rw [if_neg hc, if_pos hflag, hcs]

/-- Claim C5 witness: extraction of the concrete malloced-text record. -/
theorem c5_extra_data_handling_witness :
    rawB.code ≠ 0 ∧
    ((rawB.flags &&& ERR_TXT_STRING = 0 →
      Error.get L0 ⟨[rawB]⟩ =
        .ok (some ⟨rawB.code, rawB.file, rawB.line, L0.funcStr rawB.code, none⟩, ⟨[]⟩)) ∧
    (rawB.flags &&& ERR_TXT_STRING ≠ 0 → (utf8Decode (rawB.data.getD [])).isSome = true →
      Error.get L0 ⟨[rawB]⟩ =
        .ok (some ⟨rawB.code, rawB.file, rawB.line, L0.funcStr rawB.code,
          some (if rawB.flags &&& ERR_TXT_MALLOCED ≠ 0 then CowData.owned (rawB.data.getD [])
            else CowData.borrowed (rawB.data.getD []))⟩, ⟨[]⟩))) :=
  ⟨by decide, c5_extra_data_handling L0 rawB [] (by decide)⟩

/-- Claim C6: Error::get validates the backend-supplied text as UTF-8 and
raises the hard failure (a Rust panic, not a recoverable ErrorStack) when the
bytes are invalid; on any well-formed encoding of Unicode scalar values the
validation never fails and a record is extracted. -/
theorem c6_utf8_validation (L : Lookups) (r : RawError) (rest : List RawError)
    (hc : r.code ≠ 0) (hflag : r.flags &&& ERR_TXT_STRING ≠ 0) :
    (utf8Decode (r.data.getD []) = none →
      Error.get L ⟨r :: rest⟩ = .error .invalidUtf8) ∧
    (∀ cs : List Nat, (∀ c ∈ cs, validScalar c) → r.data = some (utf8Encode cs) →
      ∃ e, Error.get L ⟨r :: rest⟩ = .ok (some e, ⟨rest⟩)) := by
  constructor
  · intro hdec
    unfold Error.get ERR_get_error_all ERR_get_error_line_data ffiInit
    dsimp only
    rw [if_neg hc, if_pos hflag, hdec]
  · intro cs hval hdata
    have hdec : utf8Decode (r.data.getD []) = some cs := by
      rw [hdata]
      exact utf8Decode_encode cs hval
    unfold Error.get ERR_get_error_all ERR_get_error_line_data ffiInit
    dsimp only
    rw [if_neg hc, if_pos hflag, hdec]
    exact ⟨_, rfl⟩

/-- Claim C6 witness: the concrete invalid-byte record panics, and a concrete
well-formed encoding extracts. -/
theorem c6_utf8_validation_witness :
    (rawBad.code ≠ 0 ∧ rawBad.flags &&& ERR_TXT_STRING ≠ 0 ∧
      utf8Decode (rawBad.data.getD []) = none) ∧
    Error.get L0 ⟨[rawBad]⟩ = .error .invalidUtf8 ∧
    (rawC.data = some (utf8Encode [121, 111]) ∧
      ∃ e, Error.get L0 ⟨[rawC]⟩ = .ok (some e, ⟨[]⟩)) :=
  ⟨⟨by decide, by decide, by decide⟩,
    (c6_utf8_validation L0 rawBad [] (by decide) (by decide)).1 (by decide),
    ⟨by decide,
      (c6_utf8_validation L0 rawC [] (by decide) (by decide)).2 [121, 111]
        (by decide) (by decide)⟩⟩

/-- Claim C7: a record whose library, function and reason all resolve renders
as error:, the eight-hex-digit uppercase code, then library, function,
reason, file, line and data-or-empty, colon separated; each unresolvable
segment instead renders a fallback form embedding the corresponding raw id
unpacked from the code. -/
theorem c7_display_format (L : Lookups) (e : Error) :
    (∀ l f rr, L.libStr e.code = some l → e.func = some f →
      L.reasonStr e.code = some rr →
      Error.display L e =
        litBytes ("error:") ++ hexPad8 e.code ++ litBytes (":") ++ l ++
        litBytes (":") ++ f ++ litBytes (":") ++ rr ++ litBytes (":") ++ e.file ++
        litBytes (":") ++ decNat e.lineU32 ++ litBytes (":") ++
        (Error.dataBytes e).getD []) ∧
    (∀ f rr, L.libStr e.code = none → e.func = some f →
      L.reasonStr e.code = some rr →
      Error.display L e =
        litBytes ("error:") ++ hexPad8 e.code ++ litBytes (":lib(") ++
        decNat (ERR_GET_LIB e.code) ++ litBytes (")") ++
        litBytes (":") ++ f ++ litBytes (":") ++ rr ++ litBytes (":") ++ e.file ++
        litBytes (":") ++ decNat e.lineU32 ++ litBytes (":") ++
        (Error.dataBytes e).getD []) ∧
    (∀ l rr, L.libStr e.code = some l → e.func = none →
      L.reasonStr e.code = some rr →
      Error.display L e =
        litBytes ("error:") ++ hexPad8 e.code ++ litBytes (":") ++ l ++
        litBytes (":func(") ++ decNat (ERR_GET_FUNC e.code) ++ litBytes (")") ++
        litBytes (":") ++ rr ++ litBytes (":") ++ e.file ++
        litBytes (":") ++ decNat e.lineU32 ++ litBytes (":") ++
        (Error.dataBytes e).getD []) ∧
    (∀ l f, L.libStr e.code = some l → e.func = some f →
      L.reasonStr e.code = none →
      Error.display L e =
        litBytes ("error:") ++ hexPad8 e.code ++ litBytes (":") ++ l ++
        litBytes (":") ++ f ++
        litBytes (":reason(") ++ decNat (ERR_GET_REASON e.code) ++ litBytes (")") ++
        litBytes (":") ++ e.file ++
        litBytes (":") ++ decNat e.lineU32 ++ litBytes (":") ++
        (Error.dataBytes e).getD []) := by
  refine ⟨?_, ?_, ?_, ?_⟩
  · intro l f rr hl hf hr
    simp only [Error.display, hl, hf, hr, List.append_assoc]
  · intro f rr hl hf hr
    simp only [Error.display, hl, hf, hr, List.append_assoc]
  · intro l rr hl hf hr
    simp only [Error.display, hl, hf, hr, List.append_assoc]
  · intro l f hl hf hr
    simp only [Error.display, hl, hf, hr, List.append_assoc]

/-- Claim C7 witness: the fully resolvable rendering at a concrete record. -/
theorem c7_display_format_witness :
    L1.libStr errW.code = some (litBytes ("SSL")) ∧
    errW.func = some (litBytes ("fn")) ∧
    L1.reasonStr errW.code = some (litBytes ("bad")) ∧
    Error.display L1 errW =
      litBytes ("error:") ++ hexPad8 errW.code ++ litBytes (":") ++ litBytes ("SSL") ++
      litBytes (":") ++ litBytes ("fn") ++ litBytes (":") ++ litBytes ("bad") ++
      litBytes (":") ++ errW.file ++ litBytes (":") ++ decNat errW.lineU32 ++
      litBytes (":") ++ (Error.dataBytes errW).getD [] :=
  ⟨rfl, rfl, rfl,
    (c7_display_format L1 errW).1 (litBytes ("SSL")) (litBytes ("fn")) (litBytes ("bad"))
      rfl rfl rfl⟩

/-- The separator-joining loop after the first record: every remaining record
is preceded by the comma-space separator. -/
theorem displayGo_false (L : Lookups) (l : List Error) :
    displayGo L l false =
      (l.map (fun x => litBytes (", ") ++ Error.display L x)).flatten := by
  induction l with
  | nil => rfl
  | cons e l ih =>
    simp only [displayGo, ih, List.map_cons, List.flatten_cons, if_false,
      List.append_assoc]
    simp

/-- Claim C8: an empty ErrorStack renders as the fixed generic message, which
is not the empty string; a nonempty stack renders as the records joined by
the comma-space separator, in stack order. -/
theorem c8_stack_display (L : Lookups) (st : ErrorStack) :
    (st.errors = [] →
      ErrorStack.display L st = litBytes ("OpenSSL error") ∧
        ErrorStack.display L st ≠ []) ∧
    (∀ e rest, st.errors = e :: rest →
      ErrorStack.display L st =
        Error.display L e ++
          (rest.map (fun x => litBytes (", ") ++ Error.display L x)).flatten) := by
  constructor
  · intro h
    unfold ErrorStack.display
    rw [if_pos h]
    exact ⟨rfl, by decide⟩
  · intro e rest h
    unfold ErrorStack.display
    rw [if_neg (by simp [h]), h]
    simp only [displayGo, if_pos rfl, displayGo_false, List.nil_append]
    simp

/-- Claim C8 witness: the empty stack and a concrete two-record stack. -/
theorem c8_stack_display_witness :
    (ErrorStack.display L0 ⟨[]⟩ = litBytes ("OpenSSL error") ∧
      ErrorStack.display L0 ⟨[]⟩ ≠ []) ∧
    ErrorStack.display L0 ⟨[errW, errOwned]⟩ =
      Error.display L0 errW ++
        ([errOwned].map (fun x => litBytes (", ") ++ Error.display L0 x)).flatten :=
  ⟨(c8_stack_display L0 ⟨[]⟩).1 rfl,
    (c8_stack_display L0 ⟨[errW, errOwned]⟩).2 errW [errOwned] rfl⟩

/-- Claim C9 counterexample: the formatting-style conversion cannot carry the
stack's rendered text as a message — it maps two stacks with different
renderings (the empty stack and a concrete one-record stack) to the same
unit value, so no message function recovers the rendering from it. -/
theorem c9_fmt_conversion_no_message :
    (fmtErrorFrom ⟨[]⟩ = fmtErrorFrom stC9 ∧
      ErrorStack.display L0 ⟨[]⟩ ≠ ErrorStack.display L0 stC9) ∧
    ¬ ∃ msg : FmtError → Bytes, ∀ st : ErrorStack,
        msg (fmtErrorFrom st) = ErrorStack.display L0 st := by
  refine ⟨⟨rfl, by decide⟩, ?_⟩
  rintro ⟨msg, hmsg⟩
  have h1 := hmsg ⟨[]⟩
  have h2 := hmsg stC9
  rw [show fmtErrorFrom ⟨[]⟩ = fmtErrorFrom stC9 from rfl] at h1
  rw [h2] at h1
  exact absurd h1 (by decide)

/-- Claim C9 as amended: every ErrorStack converts to both representations;
the I/O-style conversion carries the stack's rendered text as the resulting
error's message, while the formatting-style conversion produces the unit
formatting-error value, which carries no message. -/
theorem c9_conversions_amended (L : Lookups) (st : ErrorStack) :
    IoError.message L (ioErrorFrom st) = ErrorStack.display L st ∧
    fmtErrorFrom st = FmtError.mk :=
  ⟨rfl, rfl⟩

/-- Claim C10: when the backend allocator returns null during Error::put of a
record with owned data, the record is still pushed (the queue grows by one)
but the set-error-data call is skipped, so the pushed raw record has a
cleared data slot and no text flag, and re-extraction of such a slot yields
no extra data; Error.put is total, so no hard failure is raised and nothing
is reported to the caller. -/
theorem c10_alloc_null_drops_data (L : Lookups) (e : Error) (d : Bytes)
    (s : BackendState) (hd : e.data = some (CowData.owned d)) :
    Error.put true e s =
      ⟨s.queue ++ [⟨ERR_PACK (ERR_GET_LIB e.code) (ERR_GET_FUNC e.code)
        (ERR_GET_REASON e.code), e.file, e.line, none, 0⟩]⟩ ∧
    (Error.put true e s).queue.length = s.queue.length + 1 ∧
    (extract L ⟨ERR_PACK (ERR_GET_LIB e.code) (ERR_GET_FUNC e.code)
      (ERR_GET_REASON e.code), e.file, e.line, none, 0⟩).data = none := by
  have hrep : replayRec true e =
      ⟨ERR_PACK (ERR_GET_LIB e.code) (ERR_GET_FUNC e.code) (ERR_GET_REASON e.code),
        e.file, e.line, none, 0⟩ := by
    unfold replayRec
    rw [hd]
    rfl
  have h1 := Error.put_append true e s
  rw [hrep] at h1
  refine ⟨h1, ?_, ?_⟩
  · rw [h1]
    simp
  · unfold extract extractData
    rw [if_neg (show ¬ (0 : Nat) &&& ERR_TXT_STRING ≠ 0 by decide)]

/-- Claim C10 witness: the concrete owned-data record under a null
allocator. -/
theorem c10_alloc_null_drops_data_witness :
    errOwned.data = some (CowData.owned (litBytes ("hi"))) ∧
    (Error.put true errOwned ⟨[]⟩ =
      ⟨([] : List RawError) ++ [⟨ERR_PACK (ERR_GET_LIB errOwned.code)
        (ERR_GET_FUNC errOwned.code) (ERR_GET_REASON errOwned.code),
        errOwned.file, errOwned.line, none, 0⟩]⟩ ∧
    (Error.put true errOwned ⟨[]⟩).queue.length = ([] : List RawError).length + 1 ∧
    (extract L0 ⟨ERR_PACK (ERR_GET_LIB errOwned.code) (ERR_GET_FUNC errOwned.code)
      (ERR_GET_REASON errOwned.code), errOwned.file, errOwned.line, none, 0⟩).data =
        none) :=
  ⟨rfl, c10_alloc_null_drops_data L0 errOwned (litBytes ("hi")) ⟨[]⟩ rfl⟩

end Ossl
